import Mathlib

/-!
# Verification of the Ballista scheduler core (`ballista/rust/scheduler/src/lib.rs`)

A shallow embedding of the scheduler gRPC service: the `execute_query`
detached planning pipeline, `poll_work`, and the `ExternalScaler`
implementation (`is_active`, `get_metrics`).  External collaborators
(DataFusion's optimizer and physical planner, the KV backend, the protobuf
codecs) are parameterized by their results; the state store and
`assign_next_schedulable_task`, whose sources are not part of the scheduler
file, are modelled from the specification where needed.
-/

namespace Ballista

/-! ## Data model (from `ballista_core::serde::protobuf`) -/

/-- Protobuf `PartitionId`: identifies one task as `(job_id, stage_id, partition_id)`. -/
structure PartitionId where
  job_id : String
  stage_id : Nat
  partition_id : Nat
deriving DecidableEq, Repr

/-- Protobuf `task_status::Status`: the three explicit task states.  A task
whose `status` field is `none` is Pending (as created by `execute_query`). -/
inductive TaskStatusDetail where
  | Running (executor_id : String)
  | Completed (executor_id : String)
  | Failed (error : String)
deriving DecidableEq, Repr

/-- Protobuf `TaskStatus`: a task key together with its current status
(`none` = Pending). -/
structure TaskStatus where
  partition_id : Option PartitionId
  status : Option TaskStatusDetail
deriving DecidableEq, Repr

/-- Protobuf `job_status::Status`: `Queued`, `Running`, `Completed`,
`Failed(error)`. -/
inductive JobStatusP where
  | Queued
  | Running
  | Completed
  | Failed (error : String)
deriving DecidableEq, Repr

/-- `ballista_core::serde::scheduler::ExecutorMeta`: executor identity and
network location. -/
structure ExecutorMeta where
  id : String
  host : String
  port : Nat
deriving DecidableEq, Repr

/-- `ShuffleWriterExec` (from `ballista_core::execution_plans`): the root
operator of every stage plan.  `output_partition_count` embeds
`output_partitioning().partition_count()`; `shuffle_output_partitioning`
embeds the optional hash partitioning returned by
`shuffle_output_partitioning()` (abstracted to its partition count). -/
structure ShuffleWriterExec where
  job_id : String
  stage_id : Nat
  output_partition_count : Nat
  shuffle_output_partitioning : Option Nat
deriving DecidableEq, Repr

/-- A physical plan as stored per stage: either a `ShuffleWriterExec` root
(the only legal case) or some other operator, identified by a description
string (used by `poll_work`'s failed downcast branch). -/
inductive ExecutionPlan where
  | shuffleWriter (sw : ShuffleWriterExec)
  | other (descr : String)
deriving DecidableEq, Repr

/-- gRPC status codes used by the scheduler handlers. -/
inductive GrpcCode where
  | internal
  | invalidArgument
  | unimplemented
deriving DecidableEq, Repr

/-- A `tonic::Status` error: code plus human-readable message. -/
structure GrpcStatus where
  code : GrpcCode
  message : String
deriving DecidableEq, Repr

/-! ## Persistence events

The state store writes performed by the scheduler are recorded as an ordered
trace of events; each event is one successful `save_*` call on
`SchedulerState`. -/

/-- One successful persistence call made by the scheduler. -/
inductive Event where
  | SaveJobStatus (job_id : String) (status : JobStatusP)
  | SaveStagePlan (job_id : String) (stage_id : Nat) (sw : ShuffleWriterExec)
  | SaveTaskStatus (ts : TaskStatus)
deriving DecidableEq, Repr

/-- The `fail_job!` macro's persistence effect: save `Failed(error)` for the
job (`lib.rs` lines 384-407). -/
def failJob (job_id error : String) : Event :=
  .SaveJobStatus job_id (.Failed error)

/-! ## The detached planning pipeline of `execute_query`

The body of the `tokio::spawn` block (`lib.rs` lines 381-492).  External
calls (DataFusion optimize, physical-plan creation, the distributed planner)
and fallible persistence calls are parameterized by their outcomes in
`PipelineEnv`; the error strings are the messages the source formats into
each `tonic::Status`. -/

/-- Outcomes of the external calls and fallible persistence operations made
by the detached planning pipeline, in source order. -/
structure PipelineEnv where
  optimizeRes : Except String Unit
  createPhysicalPlanRes : Except String Unit
  saveRunningRes : Except String Unit
  planQueryStagesRes : Except String (List ShuffleWriterExec)
  saveStagePlanRes : ShuffleWriterExec → Except String Unit
  saveTaskStatusRes : TaskStatus → Except String Unit

/-- The Pending task row created for one partition (`lib.rs` lines 475-482):
key `(job_id, stage_id, partition_id)`, status `None`. -/
def pendingStatus (job_id : String) (stage_id partition_id : Nat) : TaskStatus :=
  { partition_id := some ⟨job_id, stage_id, partition_id⟩, status := none }

/-- The inner partition loop of the pipeline (`lib.rs` lines 474-490): save a
Pending task per partition; on a save failure return the error (which
`fail_job!` then persists) together with the events already performed. -/
def saveTasksLoop (env : PipelineEnv) (job_id : String) (stage_id : Nat) :
    List Nat → List Event × Option String
  | [] => ([], none)
  | p :: rest =>
    match env.saveTaskStatusRes (pendingStatus job_id stage_id p) with
    | .error e => ([], some e)
    | .ok _ =>
      let r := saveTasksLoop env job_id stage_id rest
      (.SaveTaskStatus (pendingStatus job_id stage_id p) :: r.1, r.2)

/-- The stage loop of the pipeline (`lib.rs` lines 459-491): for each stage,
save the stage plan, then save one Pending task per output partition
(`output_partitioning().partition_count()` many); on any save failure return
the error with the events already performed. -/
def saveStagesLoop (env : PipelineEnv) (job_id : String) :
    List ShuffleWriterExec → List Event × Option String
  | [] => ([], none)
  | sw :: rest =>
    match env.saveStagePlanRes sw with
    | .error e => ([], some e)
    | .ok _ =>
      let t := saveTasksLoop env job_id sw.stage_id
        (List.range sw.output_partition_count)
      match t.2 with
      | some e => (.SaveStagePlan job_id sw.stage_id sw :: t.1, some e)
      | none =>
        let r := saveStagesLoop env job_id rest
        (.SaveStagePlan job_id sw.stage_id sw :: (t.1 ++ r.1), r.2)

/-- The best-effort `Running` status save (`lib.rs` lines 435-448): on
failure only a warning is logged and the pipeline continues. -/
def runningEvents (env : PipelineEnv) (job_id : String) : List Event :=
  match env.saveRunningRes with
  | .error _ => []
  | .ok _ => [.SaveJobStatus job_id .Running]

/-- The detached planning pipeline (`lib.rs` lines 381-492) as its ordered
trace of persistence events.  Each `fail_job!` site persists
`Failed(error)` and returns. -/
def pipeline (env : PipelineEnv) (job_id : String) : List Event :=
  match env.optimizeRes with
  | .error e => [failJob job_id e]
  | .ok _ =>
    match env.createPhysicalPlanRes with
    | .error e => [failJob job_id e]
    | .ok _ =>
      runningEvents env job_id ++
        match env.planQueryStagesRes with
        | .error e => [failJob job_id e]
        | .ok stages =>
          let r := saveStagesLoop env job_id stages
          match r.2 with
          | some e => r.1 ++ [failJob job_id e]
          | none => r.1

/-! ## Scheduler state and state-store operations

The `SchedulerState` type and its operations live in the scheduler's `state`
module, whose source is not part of the file under study; they are modelled
from the specification (§4.2 "State Store"). -/

/-- The persisted scheduler state: executors, job statuses, stage plans and
task rows, each a keyed upsert table over the KV backend. -/
structure SchedulerStateM where
  executors : List ExecutorMeta
  jobs : List (String × JobStatusP)
  stage_plans : List ((String × Nat) × ExecutionPlan)
  tasks : List TaskStatus
deriving DecidableEq, Repr

/-- Modelled from the spec: `save_executor_metadata(e)` upserts executor `e`
under `/{ns}/executors/{id}` (keyed by `id`). -/
def save_executor_metadata (st : SchedulerStateM) (m : ExecutorMeta) :
    SchedulerStateM :=
  { st with executors :=
      if st.executors.any (fun e => e.id == m.id) then
        st.executors.map (fun e => if e.id == m.id then m else e)
      else st.executors ++ [m] }

/-- Modelled from the spec: `save_task_status` upserts a task row under
`/{ns}/tasks/{job_id}/{stage_id}/{partition_id}` (keyed by the partition id). -/
def save_task_status (st : SchedulerStateM) (ts : TaskStatus) :
    SchedulerStateM :=
  { st with tasks :=
      if st.tasks.any (fun t => t.partition_id == ts.partition_id) then
        st.tasks.map (fun t => if t.partition_id == ts.partition_id then ts else t)
      else st.tasks ++ [ts] }

/-- Modelled from the spec: `get_job_metadata` reads the persisted status of
a job, absent if unknown. -/
def get_job_metadata (st : SchedulerStateM) (job_id : String) :
    Option JobStatusP :=
  (st.jobs.find? (fun j => j.1 == job_id)).map (fun j => j.2)

/-- Modelled from the spec: `get_stage_plan(job_id, stage_id)` reads the
saved stage plan. -/
def get_stage_plan (st : SchedulerStateM) (job_id : String) (stage_id : Nat) :
    Option ExecutionPlan :=
  (st.stage_plans.find? (fun p => p.1 == (job_id, stage_id))).map (fun p => p.2)

/-- A task row whose status field is absent is Pending. -/
def isPendingStatus (ts : TaskStatus) : Bool :=
  ts.status.isNone

/-- A task row reported Completed. -/
def isCompletedStatus (ts : TaskStatus) : Bool :=
  match ts.status with
  | some (.Completed _) => true
  | _ => false

/-- Modelled from the spec: a stage is ready when every task of every stage
with a smaller `stage_id` within the same job is Completed (§4.2 rule 2). -/
def stage_ready (tasks : List TaskStatus) (job_id : String) (stage_id : Nat) :
    Bool :=
  tasks.all fun t =>
    match t.partition_id with
    | some p =>
      if p.job_id == job_id && p.stage_id < stage_id then isCompletedStatus t
      else true
    | none => true

/-- Modelled from the spec: a task is schedulable when it is Pending, its job
is in Running state, and its stage is ready (§4.2 rules 2-3). -/
def schedulableB (st : SchedulerStateM) (t : TaskStatus) : Bool :=
  isPendingStatus t &&
    match t.partition_id with
    | some p =>
      if get_job_metadata st p.job_id = some .Running then
        stage_ready st.tasks p.job_id p.stage_id
      else false
    | none => false

/-- Lexicographic order on task keys `(job_id, stage_id, partition_id)`
(§4.2 rule 3's tie-break). -/
def keyLt (p q : PartitionId) : Bool :=
  p.job_id < q.job_id ||
    (p.job_id == q.job_id &&
      (p.stage_id < q.stage_id ||
        (p.stage_id == q.stage_id && p.partition_id < q.partition_id)))

/-- Select the task with the least key among the candidates. -/
def pickMinByKey (l : List TaskStatus) : Option TaskStatus :=
  l.foldl
    (fun acc t =>
      match acc, t.partition_id with
      | none, _ => some t
      | some b, some p =>
        match b.partition_id with
        | some q => if keyLt p q then some t else some b
        | none => some b
      | some b, none => some b)
    none

/-- Modelled from the spec: `assign_next_schedulable_task(executor_id)`
(§4.2).  Reads all task rows, selects the first Pending task (key order) of a
ready stage of a Running job, writes a `Running(executor_id)` status for it
and returns it together with the stage's saved plan; returns `none` when no
task qualifies; fails when the selected task's stage plan cannot be read. -/
def assign_next_schedulable_task (st : SchedulerStateM) (executor_id : String) :
    Except String (SchedulerStateM × Option (TaskStatus × ExecutionPlan)) :=
  match pickMinByKey (st.tasks.filter (schedulableB st)) with
  | none => .ok (st, none)
  | some t =>
    match t.partition_id with
    | none => .ok (st, none)
    | some p =>
      match get_stage_plan st p.job_id p.stage_id with
      | none => .error "stage plan not found"
      | some plan =>
        let assigned : TaskStatus :=
          { t with status := some (.Running executor_id) }
        .ok (save_task_status st assigned, some (assigned, plan))

/-! ## PollWork (`lib.rs` lines 173-272) -/

/-- Protobuf `ExecutorRegistration`: executor-supplied identity;
`optional_host` embeds the `oneof optional_host { Host(String) }` field. -/
structure ExecutorRegistration where
  id : String
  optional_host : Option String
  port : Nat
deriving DecidableEq, Repr

/-- Protobuf `PollWorkParams`. -/
structure PollWorkParams where
  metadata : Option ExecutorRegistration
  can_accept_task : Bool
  task_status : List TaskStatus
deriving DecidableEq, Repr

/-- Protobuf `TaskDefinition` as built by `poll_work` (`lib.rs` lines
250-257): the serialized stage plan, the task key, and the shuffle writer's
output partitioning. -/
structure TaskDefinition where
  plan : ExecutionPlan
  task_id : Option PartitionId
  output_partitioning : Option Nat
deriving DecidableEq, Repr

/-- Host normalization in `poll_work` (`lib.rs` lines 184-193): an absent
`optional_host` is replaced by the caller's source address; a supplied host
string is used as-is. -/
def normalize_executor (caller_ip : String) (reg : ExecutorRegistration) :
    ExecutorMeta :=
  { id := reg.id
    host := reg.optional_host.getD caller_ip
    port := reg.port }

/-- The `can_accept_task` branch of `poll_work` (`lib.rs` lines 217-263):
attempt an assignment; when one is returned, require its stage plan's root
to be a `ShuffleWriterExec` (downcast at lines 240-249, failing with
`Status::invalid_argument`) and build the `TaskDefinition`. -/
def poll_work_assign (st2 : SchedulerStateM) (executor_id : String) :
    SchedulerStateM × Except GrpcStatus (Option TaskDefinition) :=
  match assign_next_schedulable_task st2 executor_id with
  | .error e =>
    (st2, .error ⟨.internal, "Error finding next assignable task: " ++ e⟩)
  | .ok (st3, none) => (st3, .ok none)
  | .ok (st3, some (status, plan)) =>
    match plan with
    | .shuffleWriter sw =>
      (st3, .ok (some
        { plan := plan
          task_id := status.partition_id
          output_partitioning := sw.shuffle_output_partitioning }))
    | .other _ =>
      (st3, .error ⟨.invalidArgument,
        "Task root plan was not a ShuffleWriterExec"⟩)

/-- `poll_work` (`lib.rs` lines 173-272): reject absent metadata with
`InvalidArgument`; otherwise normalize the host, take the lock, upsert the
executor, ingest each reported task status, and — only when
`can_accept_task` — attempt an assignment.  Returns the resulting state and
the response. -/
def poll_work (caller_ip : String) (st : SchedulerStateM)
    (req : PollWorkParams) :
    SchedulerStateM × Except GrpcStatus (Option TaskDefinition) :=
  match req.metadata with
  | none => (st, .error ⟨.invalidArgument, "Missing metadata in request"⟩)
  | some reg =>
    let metadata := normalize_executor caller_ip reg
    let st1 := save_executor_metadata st metadata
    let st2 := req.task_status.foldl save_task_status st1
    if req.can_accept_task then
      poll_work_assign st2 metadata.id
    else
      (st2, .ok none)

/-! ## ExecuteQuery, synchronous part (`lib.rs` lines 315-498) -/

/-- Protobuf `execute_query_params::Query`: a serialized logical plan or SQL
text (the plan payload is abstract; its parse outcome lives in `ExecEnv`). -/
inductive QueryOneof where
  | logicalPlanQ
  | sqlQ (sql : String)
deriving DecidableEq, Repr

/-- Protobuf `ExecuteQueryParams`. -/
structure ExecuteQueryParams where
  query : Option QueryOneof
  settings : List (String × String)
deriving DecidableEq, Repr

/-- The 62 characters produced by `rand`'s `Alphanumeric` distribution. -/
def alphanumericChars : List Char :=
  "ABCDEFGHIJKLMNOPQRSTUVWXYZabcdefghijklmnopqrstuvwxyz0123456789".toList

/-- One sample of `rng.sample(Alphanumeric)` followed by `char::from`. -/
def sampleAlphanumeric (i : Fin 62) : Char :=
  alphanumericChars.getD i.1 'A'

/-- `job_id` generation (`lib.rs` lines 357-364): seven consecutive
`Alphanumeric` samples collected into a string; `rng i` is the i-th sample
drawn from the thread rng. -/
def generate_job_id (rng : Nat → Fin 62) : String :=
  String.mk ((List.range 7).map (fun i => sampleAlphanumeric (rng i)))

/-- Outcomes of the external calls made by the synchronous part of
`execute_query`, plus the rng and the environment of the detached pipeline. -/
structure ExecEnv where
  configRes : Except String Unit
  parseLogicalPlanRes : Except String Unit
  parseSqlRes : String → Except String Unit
  rng : Nat → Fin 62
  saveJobMetadataRes : Except String Unit
  pipelineEnv : PipelineEnv

/-- Result of an `execute_query` call: the synchronous persistence events,
the gRPC result (the `job_id` on success), and the job id of the detached
planning pipeline when one was spawned. -/
structure ExecuteQueryOutcome where
  events : List Event
  result : Except GrpcStatus String
  spawned : Option String
deriving Repr

/-- `execute_query` (`lib.rs` lines 315-498), synchronous part: reject an
absent `query` oneof; parse the config; obtain a logical plan (deserialize
or parse SQL); generate a fresh `job_id`; persist `Queued`; spawn the
detached pipeline; return the `job_id`. -/
def execute_query (env : ExecEnv) (req : ExecuteQueryParams) :
    ExecuteQueryOutcome :=
  match req.query with
  | none =>
    { events := [], result := .error ⟨.internal, "Error parsing request"⟩
      spawned := none }
  | some q =>
    match env.configRes with
    | .error e =>
      { events := []
        result := .error ⟨.internal, "Could not parse configs: " ++ e⟩
        spawned := none }
    | .ok _ =>
      let planRes : Except String Unit :=
        match q with
        | .logicalPlanQ => env.parseLogicalPlanRes
        | .sqlQ sql => env.parseSqlRes sql
      match planRes with
      | .error e =>
        { events := [], result := .error ⟨.internal, e⟩, spawned := none }
      | .ok _ =>
        let job_id := generate_job_id env.rng
        match env.saveJobMetadataRes with
        | .error e =>
          { events := []
            result := .error ⟨.internal, "Could not save job metadata: " ++ e⟩
            spawned := none }
        | .ok _ =>
          { events := [.SaveJobStatus job_id .Queued]
            result := .ok job_id
            spawned := some job_id }

/-! ## ExternalScaler implementation (`lib.rs` lines 122-169) -/

/-- Protobuf `MetricValue` from the `externalscaler` service. -/
structure MetricValue where
  metric_name : String
  metric_value : Nat
deriving DecidableEq, Repr

/-- `INFLIGHT_TASKS_METRIC_NAME` (`lib.rs` line 122). -/
def INFLIGHT_TASKS_METRIC_NAME : String := "inflight_tasks"

/-- `is_active` (`lib.rs` lines 126-144): true when some persisted task's
status matches neither `Completed` nor `Failed`. -/
def is_active (st : SchedulerStateM) : Bool :=
  st.tasks.any fun task =>
    !(match task.status with
      | some (.Completed _) => true
      | some (.Failed _) => true
      | _ => false)

/-- `get_metrics` (`lib.rs` lines 158-168): a single `inflight_tasks` metric
value, 10000000 ("a very high number to saturate the HPA"). -/
def get_metrics (_st : SchedulerStateM) : List MetricValue :=
  [{ metric_name := INFLIGHT_TASKS_METRIC_NAME, metric_value := 10000000 }]

/-! ## Derived notions used to state the claims -/

/-- The trace contributed by one successfully persisted stage: the stage
plan, then one Pending task per output partition. -/
def stageBlock (job_id : String) (sw : ShuffleWriterExec) : List Event :=
  .SaveStagePlan job_id sw.stage_id sw ::
    (List.range sw.output_partition_count).map
      (fun p => .SaveTaskStatus (pendingStatus job_id sw.stage_id p))

/-- All persistence calls made for one stage by the pipeline succeed. -/
def stageSavesOk (env : PipelineEnv) (job_id : String)
    (sw : ShuffleWriterExec) : Prop :=
  env.saveStagePlanRes sw = .ok () ∧
    ∀ p, p < sw.output_partition_count →
      env.saveTaskStatusRes (pendingStatus job_id sw.stage_id p) = .ok ()

/-- Recognize a persisted task row of the given stage in a trace. -/
def isTaskEventFor (job_id : String) (stage_id : Nat) : Event → Bool
  | .SaveTaskStatus ts =>
    match ts.partition_id with
    | some p => p.job_id == job_id && p.stage_id == stage_id
    | none => false
  | _ => false

/-! ## Concrete fixtures used by witnesses and counterexamples -/

/-- Pipeline environment whose logical-plan optimization fails. -/
def envOptFail : PipelineEnv :=
  { optimizeRes := .error "boom"
    createPhysicalPlanRes := .ok ()
    saveRunningRes := .ok ()
    planQueryStagesRes := .ok []
    saveStagePlanRes := fun _ => .ok ()
    saveTaskStatusRes := fun _ => .ok () }

/-- Pipeline environment whose second stage-plan save fails. -/
def envStageSaveFail : PipelineEnv :=
  { optimizeRes := .ok ()
    createPhysicalPlanRes := .ok ()
    saveRunningRes := .ok ()
    planQueryStagesRes := .ok [⟨"jW1", 0, 2, none⟩, ⟨"jW1", 1, 1, some 1⟩]
    saveStagePlanRes := fun sw => if sw.stage_id == 1 then .error "disk full" else .ok ()
    saveTaskStatusRes := fun _ => .ok () }

/-- Pipeline environment whose pending-task save for partition 1 fails. -/
def envTaskSaveFail : PipelineEnv :=
  { optimizeRes := .ok ()
    createPhysicalPlanRes := .ok ()
    saveRunningRes := .ok ()
    planQueryStagesRes := .ok [⟨"jW3", 0, 2, none⟩]
    saveStagePlanRes := fun _ => .ok ()
    saveTaskStatusRes := fun ts =>
      match ts.partition_id with
      | some p => if p.partition_id == 1 then .error "io error" else .ok ()
      | none => .ok () }

/-- Pipeline environment in which every step succeeds, producing two stages. -/
def envAllOk : PipelineEnv :=
  { optimizeRes := .ok ()
    createPhysicalPlanRes := .ok ()
    saveRunningRes := .ok ()
    planQueryStagesRes := .ok [⟨"jW2", 0, 2, none⟩, ⟨"jW2", 1, 1, some 1⟩]
    saveStagePlanRes := fun _ => .ok ()
    saveTaskStatusRes := fun _ => .ok () }

/-- Fully successful environment for a whole `execute_query` call. -/
def envExecOk : ExecEnv :=
  { configRes := .ok ()
    parseLogicalPlanRes := .ok ()
    parseSqlRes := fun _ => .ok ()
    rng := fun _ => ⟨0, by omega⟩
    saveJobMetadataRes := .ok ()
    pipelineEnv :=
      { optimizeRes := .ok ()
        createPhysicalPlanRes := .ok ()
        saveRunningRes := .ok ()
        planQueryStagesRes := .ok []
        saveStagePlanRes := fun _ => .ok ()
        saveTaskStatusRes := fun _ => .ok () } }

/-- State with one Running job whose only stage plan is (wrongly) not rooted
at a shuffle writer, and one Pending task: exercises the failed downcast. -/
def c4State : SchedulerStateM :=
  { executors := []
    jobs := [("job0001", .Running)]
    stage_plans := [(("job0001", 0), .other "FilterExec")]
    tasks := [pendingStatus "job0001" 0 0] }

/-- A second state of the same shape, for the amended-claim witness. -/
def c4WState : SchedulerStateM :=
  { executors := []
    jobs := [("jobW4", .Running)]
    stage_plans := [(("jobW4", 0), .other "CsvExec")]
    tasks := [pendingStatus "jobW4" 0 0] }

/-- The state `poll_work` leaves behind on `c4WState`: executor upserted and
the task stamped Running before the downcast fails. -/
def c4WStateAfter : SchedulerStateM :=
  { executors := [⟨"exec1", "1.2.3.4", 50051⟩]
    jobs := [("jobW4", .Running)]
    stage_plans := [(("jobW4", 0), .other "CsvExec")]
    tasks := [⟨some ⟨"jobW4", 0, 0⟩, some (.Running "exec1")⟩] }

instance {ε α : Type} [DecidableEq ε] [DecidableEq α] : DecidableEq (Except ε α)
  | .error e, .error f =>
    if h : e = f then .isTrue (by rw [h])
    else .isFalse (fun hc => absurd (Except.error.inj hc) h)
  | .error _, .ok _ => .isFalse (fun hc => Except.noConfusion hc)
  | .ok _, .error _ => .isFalse (fun hc => Except.noConfusion hc)
  | .ok a, .ok b =>
    if h : a = b then .isTrue (by rw [h])
    else .isFalse (fun hc => absurd (Except.ok.inj hc) h)

/-! ## Helper lemmas on the state store -/

theorem mem_save_executor_metadata (st : SchedulerStateM) (m : ExecutorMeta) :
    m ∈ (save_executor_metadata st m).executors := by
  show m ∈ (if st.executors.any (fun e => e.id == m.id) then
      st.executors.map (fun e => if e.id == m.id then m else e)
    else st.executors ++ [m])
  by_cases h : st.executors.any (fun e => e.id == m.id) = true
  · rw [if_pos h]
    rw [List.any_eq_true] at h
    obtain ⟨e, he, hbeq⟩ := h
    rw [List.mem_map]
    exact ⟨e, he, by rw [if_pos hbeq]⟩
  · rw [if_neg h]
    exact List.mem_append_right _ (List.mem_singleton.mpr rfl)

theorem executors_foldl_save_task_status (l : List TaskStatus)
    (st : SchedulerStateM) :
    (l.foldl save_task_status st).executors = st.executors := by
  induction l generalizing st with
  | nil => rfl
  | cons x xs ih => rw [List.foldl_cons, ih]; rfl

theorem jobs_foldl_save_task_status (l : List TaskStatus)
    (st : SchedulerStateM) :
    (l.foldl save_task_status st).jobs = st.jobs := by
  induction l generalizing st with
  | nil => rfl
  | cons x xs ih => rw [List.foldl_cons, ih]; rfl

theorem mem_tasks_save_task_status {t : TaskStatus} (st : SchedulerStateM)
    (x : TaskStatus) (h : t ∈ (save_task_status st x).tasks) :
    t ∈ st.tasks ∨ t = x := by
  have h' : t ∈ (if st.tasks.any (fun u => u.partition_id == x.partition_id) then
      st.tasks.map (fun u => if u.partition_id == x.partition_id then x else u)
    else st.tasks ++ [x]) := h
  by_cases hc : st.tasks.any (fun u => u.partition_id == x.partition_id) = true
  · rw [if_pos hc, List.mem_map] at h'
    obtain ⟨u, hu, hmap⟩ := h'
    by_cases hb : (u.partition_id == x.partition_id) = true
    · right; rw [if_pos hb] at hmap; exact hmap.symm
    · left; rw [if_neg hb] at hmap; exact hmap ▸ hu
  · rw [if_neg hc, List.mem_append] at h'
    rcases h' with h' | h'
    · exact Or.inl h'
    · exact Or.inr (List.mem_singleton.mp h')

theorem mem_tasks_foldl_save_task_status (l : List TaskStatus)
    (st : SchedulerStateM) {t : TaskStatus}
    (h : t ∈ (l.foldl save_task_status st).tasks) :
    t ∈ st.tasks ∨ t ∈ l := by
  induction l generalizing st with
  | nil => exact Or.inl h
  | cons x xs ih =>
    rw [List.foldl_cons] at h
    rcases ih (save_task_status st x) h with h1 | h1
    · rcases mem_tasks_save_task_status st x h1 with h2 | h2
      · exact Or.inl h2
      · exact Or.inr (h2 ▸ List.mem_cons_self x xs)
    · exact Or.inr (List.mem_cons_of_mem x h1)

theorem assign_next_schedulable_task_none (st : SchedulerStateM) (eid : String)
    (h : ∀ t ∈ st.tasks, schedulableB st t = false) :
    assign_next_schedulable_task st eid = .ok (st, none) := by
  unfold assign_next_schedulable_task
  have hfil : st.tasks.filter (schedulableB st) = [] :=
    List.filter_eq_nil_iff.mpr (fun a ha => by rw [h a ha]; exact Bool.false_ne_true)
  rw [hfil]
  rfl

theorem assign_preserves_executors (st : SchedulerStateM) (eid : String)
    (r : SchedulerStateM × Option (TaskStatus × ExecutionPlan))
    (h : assign_next_schedulable_task st eid = .ok r) :
    r.1.executors = st.executors := by
  unfold assign_next_schedulable_task at h
  split at h
  · injection h with h2; subst h2; rfl
  · split at h
    · injection h with h2; subst h2; rfl
    · split at h
      · cases h
      · injection h with h2; subst h2; rfl

theorem poll_work_assign_executors (st2 : SchedulerStateM) (eid : String) :
    (poll_work_assign st2 eid).1.executors = st2.executors := by
  unfold poll_work_assign
  cases h : assign_next_schedulable_task st2 eid with
  | error e => rfl
  | ok r =>
    obtain ⟨st3, t⟩ := r
    have hex := assign_preserves_executors st2 eid (st3, t) h
    cases t with
    | none => exact hex
    | some tp =>
      obtain ⟨status, plan⟩ := tp
      cases plan with
      | shuffleWriter sw => exact hex
      | other d => exact hex

theorem poll_work_assign_no_candidates (st2 : SchedulerStateM) (eid : String)
    (h : ∀ t ∈ st2.tasks, schedulableB st2 t = false) :
    poll_work_assign st2 eid = (st2, .ok none) := by
  unfold poll_work_assign
  rw [assign_next_schedulable_task_none st2 eid h]

theorem poll_work_executors (caller : String) (st : SchedulerStateM)
    (reg : ExecutorRegistration) (can : Bool) (ts : List TaskStatus) :
    (poll_work caller st ⟨some reg, can, ts⟩).1.executors =
      (save_executor_metadata st (normalize_executor caller reg)).executors := by
  cases can with
  | false =>
    exact executors_foldl_save_task_status ts
      (save_executor_metadata st (normalize_executor caller reg))
  | true =>
    have hb : poll_work caller st ⟨some reg, true, ts⟩ =
        poll_work_assign
          (ts.foldl save_task_status
            (save_executor_metadata st (normalize_executor caller reg)))
          (normalize_executor caller reg).id := rfl
    rw [hb, poll_work_assign_executors, executors_foldl_save_task_status]

/-! ## Claim theorems: PollWork edge cases -/

/-- C7: `poll_work` called with absent executor metadata returns an
`InvalidArgument` error and leaves the scheduler state untouched: no
executor upsert, no status ingestion, no assignment. -/
theorem poll_work_missing_metadata_rejected (caller : String)
    (st : SchedulerStateM) (req : PollWorkParams) (h : req.metadata = none) :
    poll_work caller st req =
      (st, .error ⟨.invalidArgument, "Missing metadata in request"⟩) := by
  obtain ⟨m, c, t⟩ := req
  subst h
  rfl

/-- Witness for C7 at a concrete request. -/
theorem poll_work_missing_metadata_rejected_witness :
    poll_work "1.1.1.1" ⟨[], [], [], []⟩ ⟨none, true, []⟩ =
      (⟨[], [], [], []⟩, .error ⟨.invalidArgument, "Missing metadata in request"⟩) :=
  poll_work_missing_metadata_rejected "1.1.1.1" ⟨[], [], [], []⟩ ⟨none, true, []⟩ rfl

/-- C6 counterexample: an executor-supplied host that is the EMPTY string is
persisted verbatim, not replaced by the caller's source address
("9.9.9.9"); the substitution happens only when the optional host is
absent. -/
theorem poll_work_empty_host_persisted_counterexample :
    (poll_work "9.9.9.9" ⟨[], [], [], []⟩
        ⟨some ⟨"abc", some "", 0⟩, false, []⟩).1.executors =
      [⟨"abc", "", 0⟩] ∧ ("" : String) ≠ "9.9.9.9" := by
  constructor
  · rfl
  · decide

/-- C6 (amended): when the executor-supplied `optional_host` is ABSENT, the
persisted executor metadata's host is the caller's source address. -/
theorem poll_work_absent_host_uses_caller_ip (caller : String)
    (st : SchedulerStateM) (reg : ExecutorRegistration) (can : Bool)
    (ts : List TaskStatus) (h : reg.optional_host = none) :
    (normalize_executor caller reg).host = caller ∧
    normalize_executor caller reg ∈
      (poll_work caller st ⟨some reg, can, ts⟩).1.executors := by
  constructor
  · unfold normalize_executor
    rw [h]
    rfl
  · rw [poll_work_executors]
    exact mem_save_executor_metadata st (normalize_executor caller reg)

/-- Witness for C6's amended claim at a concrete request. -/
theorem poll_work_absent_host_uses_caller_ip_witness :
    (normalize_executor "10.0.0.7" ⟨"abc", none, 50051⟩).host = "10.0.0.7" ∧
    normalize_executor "10.0.0.7" ⟨"abc", none, 50051⟩ ∈
      (poll_work "10.0.0.7" ⟨[], [], [], []⟩
        ⟨some ⟨"abc", none, 50051⟩, false, []⟩).1.executors :=
  poll_work_absent_host_uses_caller_ip "10.0.0.7" ⟨[], [], [], []⟩
    ⟨"abc", none, 50051⟩ false [] rfl

/-! ## Claim theorems: autoscaler adapter -/

/-- C8: `is_active` is true iff at least one persisted task is in a
non-terminal state, i.e. its status is neither `Completed` nor `Failed`
(Pending and Running count as non-terminal). -/
theorem is_active_iff_nonterminal_task (st : SchedulerStateM) :
    is_active st = true ↔
      ∃ t ∈ st.tasks, (∀ e, t.status ≠ some (.Completed e)) ∧
        (∀ e, t.status ≠ some (.Failed e)) := by
  unfold is_active
  rw [List.any_eq_true]
  constructor
  · rintro ⟨t, ht, hb⟩
    refine ⟨t, ht, fun e he => ?_, fun e he => ?_⟩ <;> rw [he] at hb <;> simp at hb
  · rintro ⟨t, ht, h1, h2⟩
    refine ⟨t, ht, ?_⟩
    cases hs : t.status with
    | none => rfl
    | some d =>
      cases d with
      | Running eid => rfl
      | Completed eid => exact absurd hs (h1 eid)
      | Failed err => exact absurd hs (h2 err)

/-- C9: whenever there is work (at least one non-terminal task),
`get_metrics` reports the `inflight_tasks` metric with the saturating value
10000000, so an external autoscaler scales to its maximum while work
exists. -/
theorem get_metrics_saturating_when_active (st : SchedulerStateM)
    (_h : is_active st = true) :
    get_metrics st =
      [{ metric_name := INFLIGHT_TASKS_METRIC_NAME, metric_value := 10000000 }] :=
  rfl

/-- Witness for C9 at a state holding one Pending task. -/
theorem get_metrics_saturating_when_active_witness :
    is_active ⟨[], [("jW9", .Running)], [], [pendingStatus "jW9" 0 0]⟩ = true ∧
    get_metrics ⟨[], [("jW9", .Running)], [], [pendingStatus "jW9" 0 0]⟩ =
      [{ metric_name := INFLIGHT_TASKS_METRIC_NAME, metric_value := 10000000 }] :=
  ⟨rfl, get_metrics_saturating_when_active _ rfl⟩

/-! ## Claim theorems: ExecuteQuery request validation -/

/-- C10: `execute_query` with an absent `query` oneof returns an error,
persists nothing, and spawns no planning pipeline (so no job_id is
generated or returned). -/
theorem execute_query_missing_query_rejected (env : ExecEnv)
    (settings : List (String × String)) :
    execute_query env { query := none, settings := settings } =
      { events := [], result := .error ⟨.internal, "Error parsing request"⟩
        spawned := none } :=
  rfl

/-- C3: `poll_work` returns `task = none` whenever `can_accept_task` is
false (the assignment is not attempted: the final state is exactly the
ingested one), and also when `can_accept_task` is true but no jobs exist or
no persisted task is Pending; the executor metadata is upserted in both
cases. -/
theorem poll_work_returns_none_without_work (caller : String)
    (st : SchedulerStateM) (reg : ExecutorRegistration)
    (ts : List TaskStatus) (can : Bool)
    (h : can = false ∨ st.jobs = [] ∨
      ((∀ t ∈ st.tasks, isPendingStatus t = false) ∧
       (∀ t ∈ ts, isPendingStatus t = false))) :
    (poll_work caller st ⟨some reg, can, ts⟩).2 = .ok none ∧
    (can = false → poll_work caller st ⟨some reg, can, ts⟩ =
      (ts.foldl save_task_status
        (save_executor_metadata st (normalize_executor caller reg)), .ok none)) ∧
    normalize_executor caller reg ∈
      (poll_work caller st ⟨some reg, can, ts⟩).1.executors := by
  have hmem : normalize_executor caller reg ∈
      (poll_work caller st ⟨some reg, can, ts⟩).1.executors := by
    rw [poll_work_executors]
    exact mem_save_executor_metadata st (normalize_executor caller reg)
  cases can with
  | false => exact ⟨rfl, fun _ => rfl, hmem⟩
  | true =>
    rcases h with h | h
    · cases h
    · have hsched : ∀ t ∈ (ts.foldl save_task_status
          (save_executor_metadata st (normalize_executor caller reg))).tasks,
          schedulableB (ts.foldl save_task_status
            (save_executor_metadata st (normalize_executor caller reg))) t = false := by
        intro t ht
        rcases h with hjobs | ⟨hst, hts⟩
        · unfold schedulableB
          cases hp : t.partition_id with
          | none => simp
          | some p =>
            have hj : get_job_metadata (ts.foldl save_task_status
                (save_executor_metadata st (normalize_executor caller reg)))
                p.job_id = none := by
              unfold get_job_metadata
              rw [jobs_foldl_save_task_status]
              have hj2 : (save_executor_metadata st
                  (normalize_executor caller reg)).jobs = [] := hjobs
              rw [hj2]
              rfl
            simp [hj]
        · have hpend : isPendingStatus t = false := by
            rcases mem_tasks_foldl_save_task_status ts _ ht with h1 | h1
            · exact hst t h1
            · exact hts t h1
          unfold schedulableB
          rw [hpend]
          simp
      have hb : poll_work caller st ⟨some reg, true, ts⟩ =
          poll_work_assign
            (ts.foldl save_task_status
              (save_executor_metadata st (normalize_executor caller reg)))
            (normalize_executor caller reg).id := rfl
      refine ⟨?_, ?_, hmem⟩
      · rw [hb, poll_work_assign_no_candidates _ _ hsched]
      · intro hc
        exact absurd hc (by decide)

/-- Witness for C3: the registration scenario of the source's own test —
empty scheduler state, `can_accept_task = true`, no reported statuses. -/
theorem poll_work_returns_none_without_work_witness :
    (poll_work "127.0.0.1" ⟨[], [], [], []⟩
        ⟨some ⟨"abc", some "", 0⟩, true, []⟩).2 = .ok none ∧
    (true = false → poll_work "127.0.0.1" ⟨[], [], [], []⟩
        ⟨some ⟨"abc", some "", 0⟩, true, []⟩ =
      ([].foldl save_task_status
        (save_executor_metadata ⟨[], [], [], []⟩
          (normalize_executor "127.0.0.1" ⟨"abc", some "", 0⟩)), .ok none)) ∧
    normalize_executor "127.0.0.1" ⟨"abc", some "", 0⟩ ∈
      (poll_work "127.0.0.1" ⟨[], [], [], []⟩
        ⟨some ⟨"abc", some "", 0⟩, true, []⟩).1.executors :=
  poll_work_returns_none_without_work "127.0.0.1" ⟨[], [], [], []⟩
    ⟨"abc", some "", 0⟩ [] true (Or.inr (Or.inl rfl))

/-- C4 counterexample: with a Running job whose only stage plan is not
rooted at a shuffle writer, `poll_work` surfaces the failed downcast as a
gRPC `InvalidArgument` status — not as the internal error the claim
states. -/
theorem poll_work_non_shuffle_root_invalid_argument_counterexample :
    (poll_work "9.9.9.9" c4State
        ⟨some ⟨"abc", some "1.2.3.4", 50051⟩, true, []⟩).2 =
      .error ⟨.invalidArgument, "Task root plan was not a ShuffleWriterExec"⟩ ∧
    GrpcCode.invalidArgument ≠ GrpcCode.internal := by
  constructor
  · rfl
  · decide

/-- C4 (amended): when the assigned task's stage plan root is not a
`ShuffleWriterExec`, `poll_work` fails with a gRPC `InvalidArgument` error
("Task root plan was not a ShuffleWriterExec") instead of returning a
`TaskDefinition`. -/
theorem poll_work_non_shuffle_root_fails (caller : String)
    (st : SchedulerStateM) (reg : ExecutorRegistration)
    (ts : List TaskStatus) (st3 : SchedulerStateM) (status : TaskStatus)
    (d : String)
    (h : assign_next_schedulable_task
        (ts.foldl save_task_status
          (save_executor_metadata st (normalize_executor caller reg)))
        (normalize_executor caller reg).id = .ok (st3, some (status, .other d))) :
    poll_work caller st ⟨some reg, true, ts⟩ =
      (st3, .error ⟨.invalidArgument,
        "Task root plan was not a ShuffleWriterExec"⟩) := by
  have hb : poll_work caller st ⟨some reg, true, ts⟩ =
      poll_work_assign
        (ts.foldl save_task_status
          (save_executor_metadata st (normalize_executor caller reg)))
        (normalize_executor caller reg).id := rfl
  rw [hb]
  unfold poll_work_assign
  rw [h]

/-- Witness for C4's amended claim at a concrete state. -/
theorem poll_work_non_shuffle_root_fails_witness :
    poll_work "9.9.9.9" c4WState ⟨some ⟨"exec1", some "1.2.3.4", 50051⟩, true, []⟩ =
      (c4WStateAfter, .error ⟨.invalidArgument,
        "Task root plan was not a ShuffleWriterExec"⟩) :=
  poll_work_non_shuffle_root_fails "9.9.9.9" c4WState
    ⟨"exec1", some "1.2.3.4", 50051⟩ [] c4WStateAfter
    ⟨some ⟨"jobW4", 0, 0⟩, some (.Running "exec1")⟩ "CsvExec" (by rfl)

/-! ## Claim theorems: successful ExecuteQuery -/

theorem sampleAlphanumeric_isAlphanum (i : Fin 62) :
    (sampleAlphanumeric i).isAlphanum = true := by
  revert i
  decide

/-- C5: every successful `execute_query` call returns a 7-character
alphanumeric `job_id`, has persisted a `Queued` status for that `job_id`
synchronously (it is the only synchronous persistence event), and has
spawned the detached planning pipeline for that `job_id`. -/
theorem execute_query_success_job_id_and_queued (env : ExecEnv)
    (req : ExecuteQueryParams) (jid : String)
    (h : (execute_query env req).result = .ok jid) :
    jid.length = 7 ∧ (∀ c ∈ jid.data, c.isAlphanum = true) ∧
    (execute_query env req).events = [.SaveJobStatus jid .Queued] ∧
    (execute_query env req).spawned = some jid := by
  have hlen : (generate_job_id env.rng).length = 7 := by
    show (String.mk ((List.range 7).map fun i => sampleAlphanumeric (env.rng i))).length = 7
    rw [String.length_mk, List.length_map, List.length_range]
  have halnum : ∀ c ∈ (generate_job_id env.rng).data, c.isAlphanum = true := by
    intro c hc
    have hdata : (generate_job_id env.rng).data =
        (List.range 7).map fun i => sampleAlphanumeric (env.rng i) := rfl
    rw [hdata, List.mem_map] at hc
    obtain ⟨i, _, rfl⟩ := hc
    exact sampleAlphanumeric_isAlphanum (env.rng i)
  obtain ⟨q, settings⟩ := req
  cases q with
  | none => simp [execute_query] at h
  | some q =>
    cases hc : env.configRes with
    | error e => simp [execute_query, hc] at h
    | ok u =>
      cases q with
      | logicalPlanQ =>
        cases hp : env.parseLogicalPlanRes with
        | error e => simp [execute_query, hc, hp] at h
        | ok v =>
          cases hs : env.saveJobMetadataRes with
          | error e => simp [execute_query, hc, hp, hs] at h
          | ok w =>
            have hchar : execute_query env ⟨some .logicalPlanQ, settings⟩ =
                { events := [.SaveJobStatus (generate_job_id env.rng) .Queued]
                  result := .ok (generate_job_id env.rng)
                  spawned := some (generate_job_id env.rng) } := by
              simp [execute_query, hc, hp, hs]
            rw [hchar] at h
            have h2 : Except.ok (ε := GrpcStatus) (generate_job_id env.rng) =
                .ok jid := h
            obtain rfl := (Except.ok.inj h2).symm
            rw [hchar]
            exact ⟨hlen, halnum, rfl, rfl⟩
      | sqlQ s =>
        cases hp : env.parseSqlRes s with
        | error e => simp [execute_query, hc, hp] at h
        | ok v =>
          cases hs : env.saveJobMetadataRes with
          | error e => simp [execute_query, hc, hp, hs] at h
          | ok w =>
            have hchar : execute_query env ⟨some (.sqlQ s), settings⟩ =
                { events := [.SaveJobStatus (generate_job_id env.rng) .Queued]
                  result := .ok (generate_job_id env.rng)
                  spawned := some (generate_job_id env.rng) } := by
              simp [execute_query, hc, hp, hs]
            rw [hchar] at h
            have h2 : Except.ok (ε := GrpcStatus) (generate_job_id env.rng) =
                .ok jid := h
            obtain rfl := (Except.ok.inj h2).symm
            rw [hchar]
            exact ⟨hlen, halnum, rfl, rfl⟩

/-- Witness for C5: a fully successful environment returns job id
"AAAAAAA". -/
theorem execute_query_success_job_id_and_queued_witness :
    ("AAAAAAA" : String).length = 7 ∧
    (∀ c ∈ ("AAAAAAA" : String).data, c.isAlphanum = true) ∧
    (execute_query envExecOk ⟨some .logicalPlanQ, []⟩).events =
      [.SaveJobStatus "AAAAAAA" .Queued] ∧
    (execute_query envExecOk ⟨some .logicalPlanQ, []⟩).spawned = some "AAAAAAA" :=
  execute_query_success_job_id_and_queued envExecOk ⟨some .logicalPlanQ, []⟩
    "AAAAAAA" (by rfl)

/-! ## Helper lemmas on the planning pipeline loops -/

theorem saveTasksLoop_ok (env : PipelineEnv) (job_id : String) (stage_id : Nat)
    (ps : List Nat)
    (h : ∀ p ∈ ps, env.saveTaskStatusRes (pendingStatus job_id stage_id p) = .ok ()) :
    saveTasksLoop env job_id stage_id ps =
      (ps.map fun p => .SaveTaskStatus (pendingStatus job_id stage_id p), none) := by
  induction ps with
  | nil => rfl
  | cons p rest ih =>
    have hp := h p (List.mem_cons_self p rest)
    have ih2 := ih (fun q hq => h q (List.mem_cons_of_mem p hq))
    simp only [saveTasksLoop, hp, ih2, List.map_cons]

theorem saveTasksLoop_fails (env : PipelineEnv) (job_id : String)
    (stage_id : Nat) (ps₁ : List Nat) (q : Nat) (ps₂ : List Nat) (e : String)
    (h1 : ∀ p ∈ ps₁, env.saveTaskStatusRes (pendingStatus job_id stage_id p) = .ok ())
    (hq : env.saveTaskStatusRes (pendingStatus job_id stage_id q) = .error e) :
    saveTasksLoop env job_id stage_id (ps₁ ++ q :: ps₂) =
      (ps₁.map fun p => .SaveTaskStatus (pendingStatus job_id stage_id p), some e) := by
  induction ps₁ with
  | nil => simp only [List.nil_append, saveTasksLoop, hq, List.map_nil]
  | cons p rest ih =>
    have hp := h1 p (List.mem_cons_self p rest)
    have ih2 := ih (fun r hr => h1 r (List.mem_cons_of_mem p hr))
    simp only [List.cons_append, List.append_eq, saveTasksLoop, hp, ih2, List.map_cons]

theorem range_decompose (q n : Nat) (h : q < n) :
    List.range n =
      List.range q ++ q :: ((List.range (n - q - 1)).map fun i => q + 1 + i) := by
  obtain ⟨k, rfl⟩ : ∃ k, n = k + 1 + q := ⟨n - q - 1, by omega⟩
  have hk : k + 1 + q - q - 1 = k := by omega
  rw [hk, List.range_eq_range', ← List.range'_append 0 q (k + 1) 1]
  congr 1
  · exact (List.range_eq_range' q).symm
  · have h1 : 0 + 1 * q = q := by omega
    rw [h1, List.range'_succ, List.range'_eq_map_range]

theorem saveStagesLoop_ok (env : PipelineEnv) (job_id : String)
    (stages : List ShuffleWriterExec)
    (h : ∀ sw ∈ stages, stageSavesOk env job_id sw) :
    saveStagesLoop env job_id stages =
      (stages.flatMap (stageBlock job_id), none) := by
  induction stages with
  | nil => rfl
  | cons sw rest ih =>
    obtain ⟨hplan, htasks⟩ := h sw (List.mem_cons_self sw rest)
    have htl := saveTasksLoop_ok env job_id sw.stage_id
      (List.range sw.output_partition_count)
      (fun p hp => htasks p (List.mem_range.mp hp))
    have ih2 := ih (fun s hs => h s (List.mem_cons_of_mem sw hs))
    simp only [saveStagesLoop, hplan, htl, ih2, List.flatMap_cons, stageBlock,
      List.cons_append]

theorem saveStagesLoop_stage_save_fails (env : PipelineEnv) (job_id : String)
    (pre : List ShuffleWriterExec) (sw : ShuffleWriterExec)
    (post : List ShuffleWriterExec) (e : String)
    (hpre : ∀ s ∈ pre, stageSavesOk env job_id s)
    (hsw : env.saveStagePlanRes sw = .error e) :
    saveStagesLoop env job_id (pre ++ sw :: post) =
      (pre.flatMap (stageBlock job_id), some e) := by
  induction pre with
  | nil => simp only [List.nil_append, saveStagesLoop, hsw, List.flatMap_nil]
  | cons s rest ih =>
    obtain ⟨hplan, htasks⟩ := hpre s (List.mem_cons_self s rest)
    have htl := saveTasksLoop_ok env job_id s.stage_id
      (List.range s.output_partition_count)
      (fun p hp => htasks p (List.mem_range.mp hp))
    have ih2 := ih (fun x hx => hpre x (List.mem_cons_of_mem s hx))
    simp only [List.cons_append, List.append_eq, saveStagesLoop, hplan, htl, ih2,
      List.flatMap_cons, stageBlock, List.append_assoc]

theorem saveStagesLoop_task_save_fails (env : PipelineEnv) (job_id : String)
    (pre : List ShuffleWriterExec) (sw : ShuffleWriterExec)
    (post : List ShuffleWriterExec) (q : Nat) (e : String)
    (hpre : ∀ s ∈ pre, stageSavesOk env job_id s)
    (hsw : env.saveStagePlanRes sw = .ok ())
    (hq : q < sw.output_partition_count)
    (hbefore : ∀ p, p < q →
      env.saveTaskStatusRes (pendingStatus job_id sw.stage_id p) = .ok ())
    (hfail : env.saveTaskStatusRes (pendingStatus job_id sw.stage_id q) = .error e) :
    saveStagesLoop env job_id (pre ++ sw :: post) =
      (pre.flatMap (stageBlock job_id) ++
        (.SaveStagePlan job_id sw.stage_id sw ::
          ((List.range q).map fun p =>
            .SaveTaskStatus (pendingStatus job_id sw.stage_id p))),
       some e) := by
  have htl : saveTasksLoop env job_id sw.stage_id
      (List.range sw.output_partition_count) =
      ((List.range q).map fun p =>
        .SaveTaskStatus (pendingStatus job_id sw.stage_id p), some e) := by
    rw [range_decompose q sw.output_partition_count hq]
    exact saveTasksLoop_fails env job_id sw.stage_id (List.range q) q _ e
      (fun p hp => hbefore p (List.mem_range.mp hp)) hfail
  induction pre with
  | nil =>
    simp only [List.nil_append, saveStagesLoop, hsw, htl, List.flatMap_nil]
  | cons s rest ih =>
    obtain ⟨hplan, htasks⟩ := hpre s (List.mem_cons_self s rest)
    have htl2 := saveTasksLoop_ok env job_id s.stage_id
      (List.range s.output_partition_count)
      (fun p hp => htasks p (List.mem_range.mp hp))
    have ih2 := ih (fun x hx => hpre x (List.mem_cons_of_mem s hx))
    simp only [List.cons_append, List.append_eq, saveStagesLoop, hplan, htl2, ih2,
      List.flatMap_cons, stageBlock, List.append_assoc]

theorem countP_stageBlock (job_id : String) (k : Nat) (s : ShuffleWriterExec) :
    (stageBlock job_id s).countP (isTaskEventFor job_id k) =
      if s.stage_id = k then s.output_partition_count else 0 := by
  unfold stageBlock
  rw [List.countP_cons, List.countP_map]
  have hhead : isTaskEventFor job_id k (.SaveStagePlan job_id s.stage_id s) = false := rfl
  rw [hhead]
  by_cases h : s.stage_id = k
  · subst h
    rw [if_pos rfl]
    have hfun : (isTaskEventFor job_id s.stage_id ∘ fun p =>
        Event.SaveTaskStatus (pendingStatus job_id s.stage_id p)) = fun _ => true := by
      funext p
      show (job_id == job_id && s.stage_id == s.stage_id) = true
      simp
    rw [hfun, List.countP_true, List.length_range]
    simp
  · rw [if_neg h]
    have hfun : ∀ a ∈ List.range s.output_partition_count,
        ¬((isTaskEventFor job_id k ∘ fun p =>
          Event.SaveTaskStatus (pendingStatus job_id s.stage_id p)) a = true) := by
      intro a _
      show ¬((job_id == job_id && s.stage_id == k) = true)
      simp [h]
    rw [List.countP_eq_zero.mpr hfun]
    simp

theorem countP_flatMap_blocks_zero (job_id : String) (k : Nat)
    (l : List ShuffleWriterExec) (h : ∀ s ∈ l, s.stage_id ≠ k) :
    (l.flatMap (stageBlock job_id)).countP (isTaskEventFor job_id k) = 0 := by
  induction l with
  | nil => rfl
  | cons s rest ih =>
    rw [List.flatMap_cons, List.countP_append, countP_stageBlock,
      if_neg (h s (List.mem_cons_self s rest)),
      ih (fun x hx => h x (List.mem_cons_of_mem s hx))]

theorem countP_flatMap_blocks (job_id : String)
    (stages : List ShuffleWriterExec) (sw : ShuffleWriterExec)
    (hmem : sw ∈ stages)
    (hnodup : (stages.map fun s => s.stage_id).Nodup) :
    (stages.flatMap (stageBlock job_id)).countP
        (isTaskEventFor job_id sw.stage_id) =
      sw.output_partition_count := by
  induction stages with
  | nil => cases hmem
  | cons s rest ih =>
    rw [List.map_cons, List.nodup_cons] at hnodup
    obtain ⟨hnotin, hnd⟩ := hnodup
    rw [List.flatMap_cons, List.countP_append, countP_stageBlock]
    rcases List.mem_cons.mp hmem with heq | hmemr
    · subst heq
      rw [if_pos rfl]
      have hzero : (rest.flatMap (stageBlock job_id)).countP
          (isTaskEventFor job_id sw.stage_id) = 0 := by
        apply countP_flatMap_blocks_zero
        intro x hx hxeq
        apply hnotin
        rw [← hxeq]
        exact List.mem_map_of_mem (fun s => s.stage_id) hx
      rw [hzero]
      rfl
    · have hneq : s.stage_id ≠ sw.stage_id := by
        intro hcontra
        apply hnotin
        rw [hcontra]
        exact List.mem_map_of_mem (fun s => s.stage_id) hmemr
      rw [if_neg hneq, ih hmemr hnd]
      exact Nat.zero_add _

theorem countP_runningEvents (env : PipelineEnv) (job_id : String) (k : Nat) :
    (runningEvents env job_id).countP (isTaskEventFor job_id k) = 0 := by
  unfold runningEvents
  cases env.saveRunningRes with
  | error e => rfl
  | ok u => rfl

/-! ## Claim theorems: the detached planning pipeline -/

/-- C1: every failing step of the detached planning pipeline —
logical-plan optimization, physical-plan creation, stage planning,
stage-plan persistence, or pending-task persistence — makes the pipeline
persist `Failed(error)` with that step's error message as its final
persistence event and stop: nothing follows the `Failed` save in the
trace. -/
theorem pipeline_failure_persists_failed_and_stops (env : PipelineEnv)
    (job_id : String) :
    (∀ e, env.optimizeRes = .error e →
      pipeline env job_id = [failJob job_id e]) ∧
    (∀ e, env.optimizeRes = .ok () → env.createPhysicalPlanRes = .error e →
      pipeline env job_id = [failJob job_id e]) ∧
    (∀ e, env.optimizeRes = .ok () → env.createPhysicalPlanRes = .ok () →
      env.planQueryStagesRes = .error e →
      pipeline env job_id = runningEvents env job_id ++ [failJob job_id e]) ∧
    (∀ e pre sw post, env.optimizeRes = .ok () →
      env.createPhysicalPlanRes = .ok () →
      env.planQueryStagesRes = .ok (pre ++ sw :: post) →
      (∀ s ∈ pre, stageSavesOk env job_id s) →
      env.saveStagePlanRes sw = .error e →
      pipeline env job_id = runningEvents env job_id ++
        pre.flatMap (stageBlock job_id) ++ [failJob job_id e]) ∧
    (∀ e pre sw post q, env.optimizeRes = .ok () →
      env.createPhysicalPlanRes = .ok () →
      env.planQueryStagesRes = .ok (pre ++ sw :: post) →
      (∀ s ∈ pre, stageSavesOk env job_id s) →
      env.saveStagePlanRes sw = .ok () →
      q < sw.output_partition_count →
      (∀ p, p < q →
        env.saveTaskStatusRes (pendingStatus job_id sw.stage_id p) = .ok ()) →
      env.saveTaskStatusRes (pendingStatus job_id sw.stage_id q) = .error e →
      pipeline env job_id = runningEvents env job_id ++
        (pre.flatMap (stageBlock job_id) ++
          (.SaveStagePlan job_id sw.stage_id sw ::
            ((List.range q).map fun p =>
              .SaveTaskStatus (pendingStatus job_id sw.stage_id p)))) ++
        [failJob job_id e]) := by
  refine ⟨?_, ?_, ?_, ?_, ?_⟩
  · intro e he
    simp only [pipeline, he]
  · intro e ho he
    simp only [pipeline, ho, he]
  · intro e ho hp he
    simp only [pipeline, ho, hp, he]
  · intro e pre sw post ho hp hplan hpre hsw
    simp only [pipeline, ho, hp, hplan,
      saveStagesLoop_stage_save_fails env job_id pre sw post e hpre hsw,
      List.append_assoc]
  · intro e pre sw post q ho hp hplan hpre hsw hq hbefore hfail
    simp only [pipeline, ho, hp, hplan,
      saveStagesLoop_task_save_fails env job_id pre sw post q e hpre hsw hq
        hbefore hfail,
      List.append_assoc]

/-- Witness for C1: an optimizer failure, a stage-plan save failure, and a
pending-task save failure, each at a concrete environment. -/
theorem pipeline_failure_persists_failed_and_stops_witness :
    pipeline envOptFail "jW0" = [failJob "jW0" "boom"] ∧
    pipeline envStageSaveFail "jW1" = runningEvents envStageSaveFail "jW1" ++
      [(⟨"jW1", 0, 2, none⟩ : ShuffleWriterExec)].flatMap (stageBlock "jW1") ++
      [failJob "jW1" "disk full"] ∧
    pipeline envTaskSaveFail "jW3" = runningEvents envTaskSaveFail "jW3" ++
      (([] : List ShuffleWriterExec).flatMap (stageBlock "jW3") ++
        (.SaveStagePlan "jW3" 0 ⟨"jW3", 0, 2, none⟩ ::
          ((List.range 1).map fun p =>
            .SaveTaskStatus (pendingStatus "jW3" 0 p)))) ++
      [failJob "jW3" "io error"] := by
  refine ⟨?_, ?_, ?_⟩
  · exact (pipeline_failure_persists_failed_and_stops envOptFail "jW0").1 "boom" rfl
  · exact (pipeline_failure_persists_failed_and_stops envStageSaveFail "jW1").2.2.2.1
      "disk full" [⟨"jW1", 0, 2, none⟩] ⟨"jW1", 1, 1, some 1⟩ [] rfl rfl rfl
      (fun s hs => by
        rw [List.mem_singleton] at hs
        subst hs
        exact ⟨rfl, fun p _ => rfl⟩)
      rfl
  · exact (pipeline_failure_persists_failed_and_stops envTaskSaveFail "jW3").2.2.2.2
      "io error" [] ⟨"jW3", 0, 2, none⟩ [] 1 rfl rfl rfl
      (fun s hs => absurd hs (List.not_mem_nil s))
      rfl (by decide)
      (fun p hp => by
        have hp0 : p = 0 := by omega
        subst hp0
        rfl)
      rfl

/-- C2: in a fully successful pipeline run, the trace is exactly the
per-stage blocks in planner order; for each stage the stage plan is
persisted first, immediately followed by its Pending tasks; and the number
of task rows created for `(job_id, stage_id)` equals the partition count of
the stage plan's output partitioning. -/
theorem pipeline_stage_persists_plan_then_pending_tasks (env : PipelineEnv)
    (job_id : String) (stages : List ShuffleWriterExec)
    (sw : ShuffleWriterExec)
    (ho : env.optimizeRes = .ok ()) (hp : env.createPhysicalPlanRes = .ok ())
    (hplan : env.planQueryStagesRes = .ok stages)
    (hok : ∀ s ∈ stages, stageSavesOk env job_id s)
    (hmem : sw ∈ stages)
    (hnodup : (stages.map fun s => s.stage_id).Nodup) :
    pipeline env job_id =
      runningEvents env job_id ++ stages.flatMap (stageBlock job_id) ∧
    (∃ l₁ l₂, pipeline env job_id = l₁ ++ stageBlock job_id sw ++ l₂) ∧
    (pipeline env job_id).countP (isTaskEventFor job_id sw.stage_id) =
      sw.output_partition_count := by
  have htrace : pipeline env job_id =
      runningEvents env job_id ++ stages.flatMap (stageBlock job_id) := by
    simp only [pipeline, ho, hp, hplan, saveStagesLoop_ok env job_id stages hok]
  refine ⟨htrace, ?_, ?_⟩
  · obtain ⟨l₁, l₂, hsplit⟩ := List.append_of_mem hmem
    refine ⟨runningEvents env job_id ++ l₁.flatMap (stageBlock job_id),
      l₂.flatMap (stageBlock job_id), ?_⟩
    rw [htrace, hsplit, List.flatMap_append, List.flatMap_cons]
    simp [List.append_assoc]
  · rw [htrace, List.countP_append, countP_runningEvents,
      countP_flatMap_blocks job_id stages sw hmem hnodup]
    exact Nat.zero_add _

/-- Witness for C2: a two-stage plan with all saves succeeding; the final
single-partition stage gets exactly one Pending task. -/
theorem pipeline_stage_persists_plan_then_pending_tasks_witness :
    pipeline envAllOk "jW2" = runningEvents envAllOk "jW2" ++
      [(⟨"jW2", 0, 2, none⟩ : ShuffleWriterExec),
        ⟨"jW2", 1, 1, some 1⟩].flatMap (stageBlock "jW2") ∧
    (∃ l₁ l₂, pipeline envAllOk "jW2" =
      l₁ ++ stageBlock "jW2" ⟨"jW2", 1, 1, some 1⟩ ++ l₂) ∧
    (pipeline envAllOk "jW2").countP (isTaskEventFor "jW2" 1) = 1 :=
  pipeline_stage_persists_plan_then_pending_tasks envAllOk "jW2"
    [⟨"jW2", 0, 2, none⟩, ⟨"jW2", 1, 1, some 1⟩] ⟨"jW2", 1, 1, some 1⟩
    rfl rfl rfl (fun s _ => ⟨rfl, fun p _ => rfl⟩)
    (by decide) (by decide)

end Ballista
